import Mathlib

/-!
Shallow embedding of the gophermart-bonus loyalty-points service
(order reconciliation pipeline, order store, balance ledger, withdrawal
processor, external accrual client, withdrawal HTTP handler), together
with theorems settling the specification claims about it.

Monetary amounts (Go `float64` columns) are embedded as the exact
numeric type `Money`; machine
time instants are embedded as `Nat` nanoseconds since the epoch, with
`0` playing the role of Go's zero `time.Time`.  Fallible store calls are
embedded by threading the committed database state explicitly and by
injecting driver failures through explicit boolean failure schedules:
a transaction's writes touch a transaction-local copy of the state and
reach the committed state only at `Commit`.
-/

namespace Gophermart

/-- Monetary amount.  The source stores amounts as `float64`; every
operation the repositories perform on them is an addition, a subtraction
or an order comparison, so the embedding idealizes them as exact integer
arithmetic (amounts in arbitrary fixed minor units). -/
abbrev Money := Int

/-! ## Data model (tables of the store) -/

/-- A row of the `"order"` table (`repositories.Order`). -/
structure OrderRow where
  id : Nat
  userId : Nat
  number : String
  status : String
  deriving DecidableEq, Repr

/-- A row of the `"accrual"` table. -/
structure AccrualRow where
  amount : Money
  userId : Nat
  orderId : Nat
  deriving DecidableEq, Repr

/-- A row of the `"user-balance"` table. -/
structure BalanceRow where
  userId : Nat
  balance : Money
  withdrawalsSum : Money
  deriving DecidableEq, Repr

/-- A row of the `withdrawal` table (`repositories.Withdrawal`). -/
structure WithdrawalRow where
  id : Nat
  amount : Money
  userId : Nat
  orderNumber : String
  deriving DecidableEq, Repr

/-- The committed state of the database. -/
structure DB where
  orders : List OrderRow
  accruals : List AccrualRow
  balances : List BalanceRow
  withdrawals : List WithdrawalRow
  deriving DecidableEq, Repr

/-! ## Order status constants (`repositories`, part of the order store) -/

def OrderStatusNew : String := "NEW"

def OrderStatusProcessing : String := "PROCESSING"

def OrderStatusProcessed : String := "PROCESSED"

def OrderStatusInvalid : String := "INVALID"

def AllOrderStatuses : List String :=
  [OrderStatusNew, OrderStatusProcessing, OrderStatusProcessed, OrderStatusInvalid]

/-! ## SQL statements used by the repositories, as state transformers -/

/-- `UPDATE "order" SET status = $1 WHERE id = $2` (`updateStatusQuery`). -/
def sqlUpdateOrderStatus (db : DB) (status : String) (orderID : Nat) : DB :=
  { db with
    orders := db.orders.map
      (fun r => if r.id = orderID then { r with status := status } else r) }

/-- `INSERT INTO "accrual" (amount, user_id, order_id) VALUES ($1, $2, $3)`. -/
def sqlInsertAccrual (db : DB) (amount : Money) (userID orderID : Nat) : DB :=
  { db with accruals := db.accruals ++ [⟨amount, userID, orderID⟩] }

/-- `UPDATE "user-balance" SET balance = balance + $1 WHERE user_id = $2`. -/
def sqlAddBalance (db : DB) (amount : Money) (userID : Nat) : DB :=
  { db with
    balances := db.balances.map
      (fun r => if r.userId = userID then { r with balance := r.balance + amount } else r) }

/-- `SELECT balance FROM "user-balance" WHERE user_id = $1 FOR UPDATE`;
`none` models `sql.ErrNoRows` surfacing from `row.Scan`. -/
def sqlSelectBalance (db : DB) (userID : Nat) : Option Money :=
  (db.balances.find? (fun r => r.userId = userID)).map (fun r => r.balance)

/-- `UPDATE "user-balance" SET balance = balance - $1,
withdrawals_sum = withdrawals_sum + $1 WHERE user_id = $2`. -/
def sqlWithdrawBalance (db : DB) (amount : Money) (userID : Nat) : DB :=
  { db with
    balances := db.balances.map
      (fun r => if r.userId = userID then
        { r with balance := r.balance - amount,
                 withdrawalsSum := r.withdrawalsSum + amount } else r) }

/-- Whether the unique constraint on `withdrawal.withdrawal_order_number`
would reject an insert of `number` (integrity-constraint violation). -/
def withdrawalNumberExists (db : DB) (number : String) : Bool :=
  db.withdrawals.any (fun w => w.orderNumber = number)

/-- `INSERT INTO withdrawal (amount, user_id, withdrawal_order_number)
VALUES ($1, $2, $3) RETURNING id`; the returned id is the fresh row id. -/
def sqlInsertWithdrawal (db : DB) (amount : Money) (userID : Nat) (number : String) :
    DB × Nat :=
  let newId := db.withdrawals.length + 1
  ({ db with withdrawals := db.withdrawals ++ [⟨newId, amount, userID, number⟩] }, newId)

/-- Status of an order row in the committed state (first row with the id). -/
def orderStatus (db : DB) (orderID : Nat) : Option String :=
  (db.orders.find? (fun r => r.id = orderID)).map (fun r => r.status)

/-! ## Errors returned by the repositories -/

/-- Error values of the repository layer.  `storeFailure` stands for any
driver/connection error injected by a failure schedule; `rollbackFailure`
for an error returned by `transaction.Rollback`; `txDone` for
`sql.ErrTxDone` returned by a second `Rollback` on a finished transaction;
`fatalExit` for the paths that call `logger.Log.Fatal` (which terminates
the process before the `return` after it can run). -/
inductive RepoError where
  | invalidStatus
  | wrongMethodUsed
  | notEnoughPoints
  | withdrawalOrderAlreadyExists
  | noBalanceRow
  | storeFailure
  | rollbackFailure
  | txDone
  | fatalExit
  deriving DecidableEq, Repr

/-- Injected driver failures for a plain prepare/exec statement pair. -/
structure SimpleFail where
  prep : Bool
  exec : Bool
  deriving DecidableEq, Repr

/-- The schedule with no injected failure. -/
def SimpleFail.noFailures : SimpleFail := ⟨false, false⟩

namespace OrderRepository

/-- `OrderRepository.UpdateOrderStatus` (order store, single-row status set):
rejects a status outside `AllOrderStatuses` with `ErrInvalidStatus`, rejects
`PROCESSED` with `ErrWrongMethodUsed`, then prepares and executes
`updateStatusQuery`; each of the two driver steps may fail. -/
def UpdateOrderStatus (db : DB) (orderID : Nat) (status : String) (g : SimpleFail) :
    DB × Except RepoError Unit :=
  if ¬ AllOrderStatuses.contains status then (db, .error .invalidStatus)
  else if status = OrderStatusProcessed then (db, .error .wrongMethodUsed)
  else if g.prep then (db, .error .storeFailure)
  else if g.exec then (db, .error .storeFailure)
  else (sqlUpdateOrderStatus db status orderID, .ok ())

/-- Injected driver failures for the steps of `UpdateOrderAndPasteAccrual`.
`rollback` makes any attempted `transaction.Rollback` return an error. -/
structure TxFailures where
  beginTx : Bool
  prepUpdateStatus : Bool
  execUpdateStatus : Bool
  prepInsertAccrual : Bool
  execInsertAccrual : Bool
  prepUpdateBalance : Bool
  execUpdateBalance : Bool
  commit : Bool
  rollback : Bool
  deriving DecidableEq, Repr

/-- The schedule with no injected failure. -/
def TxFailures.noFailures : TxFailures :=
  ⟨false, false, false, false, false, false, false, false, false⟩

/-- Error returned by the rollback-then-return pattern of
`UpdateOrderAndPasteAccrual`: the rollback error when `Rollback` fails,
otherwise the original step error. -/
def rollbackOr (rollbackFails : Bool) (e : RepoError) : RepoError :=
  if rollbackFails then .rollbackFailure else e

/-- `OrderRepository.UpdateOrderAndPasteAccrual`: rejects any status other
than `PROCESSED` with `ErrWrongMethodUsed`; otherwise begins a
transaction, updates the order status, inserts the accrual row, adds the
amount to the user's balance, and commits.  Every failing step rolls the
transaction back, so the committed state is unchanged on every error
path; the three writes become visible together only at `Commit`. -/
def UpdateOrderAndPasteAccrual (db : DB) (order : OrderRow) (status : String)
    (amount : Money) (f : TxFailures) : DB × Except RepoError Unit :=
  if status ≠ OrderStatusProcessed then (db, .error .wrongMethodUsed)
  else if f.beginTx then (db, .error .storeFailure)
  else if f.prepUpdateStatus then (db, .error (rollbackOr f.rollback .storeFailure))
  else if f.execUpdateStatus then (db, .error (rollbackOr f.rollback .storeFailure))
  else
    let tx1 := sqlUpdateOrderStatus db status order.id
    if f.prepInsertAccrual then (db, .error (rollbackOr f.rollback .storeFailure))
    else if f.execInsertAccrual then (db, .error (rollbackOr f.rollback .storeFailure))
    else
      let tx2 := sqlInsertAccrual tx1 amount order.userId order.id
      if f.prepUpdateBalance then (db, .error (rollbackOr f.rollback .storeFailure))
      else if f.execUpdateBalance then (db, .error (rollbackOr f.rollback .storeFailure))
      else
        let tx3 := sqlAddBalance tx2 amount order.userId
        if f.commit then (db, .error .storeFailure)
        else (tx3, .ok ())

end OrderRepository

/-! ## Withdrawal repository -/

/-- Final state of the `database/sql` transaction opened by
`WithdrawalRepository.Create`: committed, rolled back (a `Rollback` call
was issued), left open (the function returned without `Commit` or
`Rollback`, leaking the connection and the `FOR UPDATE` row lock), or a
failed `Commit`.  `notStarted` means `BeginTx` itself failed. -/
inductive TxState where
  | notStarted
  | committed
  | rolledBack
  | leftOpen
  | commitFailed
  deriving DecidableEq, Repr

namespace WithdrawalRepository

/-- Injected driver failures for the steps of
`WithdrawalRepository.Create`.  `queryInsert` is a non-constraint driver
failure of the `INSERT ... RETURNING id` query (a duplicate order number
is not injected — it is read off the database state); `rollback` makes
any attempted `transaction.Rollback` return an error. -/
structure WFail where
  beginTx : Bool
  prepSelect : Bool
  querySelect : Bool
  prepUpdateBalance : Bool
  execUpdateBalance : Bool
  prepInsertWithdrawal : Bool
  queryInsert : Bool
  commit : Bool
  rollback : Bool
  deriving DecidableEq, Repr

/-- The schedule with no injected failure. -/
def WFail.noFailures : WFail :=
  ⟨false, false, false, false, false, false, false, false, false⟩

/-- Rollback-then-return pattern whose rollback-error arm calls
`logger.Log.Fatal` (process exit) before its `return` statement. -/
def rbFatal (db : DB) (rollbackFails : Bool) (e : RepoError) :
    DB × TxState × Except RepoError Nat :=
  if rollbackFails then (db, .rolledBack, .error .fatalExit)
  else (db, .rolledBack, .error e)

/-- `WithdrawalRepository.Create`, step by step from the source: begin a
transaction; prepare and run `SELECT balance ... FOR UPDATE`; scan the
balance; reject with `ErrNotEnoughPoints` when `amount > balance`;
update the balance row (debit and cumulative `withdrawals_sum`); prepare
the `INSERT INTO withdrawal ... RETURNING id` (NOTE: a failure of this
prepare returns without any `Rollback`, leaving the transaction open);
run the insert, where a duplicate `withdrawal_order_number` surfaces as
a row error: the row-error branch rolls back without returning, and the
following `row.Scan` error branch returns `ErrWithdrawalOrderAlreadyExists`
for an integrity violation, or calls `Rollback` a second time (getting
`sql.ErrTxDone`) for other insert errors; finally commit. -/
def Create (db : DB) (number : String) (amount : Money) (userID : Nat) (f : WFail) :
    DB × TxState × Except RepoError Nat :=
  if f.beginTx then (db, .notStarted, .error .storeFailure)
  else if f.prepSelect then
    -- this branch returns the rollback error plainly (no Fatal logging)
    (db, .rolledBack, .error (if f.rollback then .rollbackFailure else .storeFailure))
  else if f.querySelect then rbFatal db f.rollback .storeFailure
  else
    match sqlSelectBalance db userID with
    | none => rbFatal db f.rollback .noBalanceRow
    | some balance =>
      if amount > balance then rbFatal db f.rollback .notEnoughPoints
      else if f.prepUpdateBalance then rbFatal db f.rollback .storeFailure
      else if f.execUpdateBalance then rbFatal db f.rollback .storeFailure
      else
        -- transaction-local debit of the balance row
        let tx1 := sqlWithdrawBalance db amount userID
        if f.prepInsertWithdrawal then
          -- `return 0, err` with no Rollback: the transaction stays open
          (db, .leftOpen, .error .storeFailure)
        else
          let insertErr : Option RepoError :=
            if f.queryInsert then some .storeFailure
            else if withdrawalNumberExists db number then
              some .withdrawalOrderAlreadyExists
            else none
          match insertErr with
          | some e =>
            -- `row.Err() != nil`: roll back; on rollback error Fatal-exit;
            -- otherwise fall through (no return) into `row.Scan`
            if f.rollback then (db, .rolledBack, .error .fatalExit)
            else if e = .withdrawalOrderAlreadyExists then
              (db, .rolledBack, .error .withdrawalOrderAlreadyExists)
            else
              -- non-constraint scan error: second Rollback yields ErrTxDone,
              -- which the code returns instead of the insert error
              (db, .rolledBack, .error .txDone)
          | none =>
            let (tx2, newId) := sqlInsertWithdrawal tx1 amount userID number
            if f.commit then (db, .commitFailed, .error .fatalExit)
            else (tx2, .committed, .ok newId)

end WithdrawalRepository

/-! ## Small Go standard-library helpers used by the code -/

/-- Digit-string parsing loop of `strconv.Atoi`. -/
def goAtoiLoop : List Char → Nat → Option Nat
  | [], acc => some acc
  | c :: cs, acc =>
      if c.isDigit then goAtoiLoop cs (acc * 10 + (c.toNat - 48)) else none

/-- `strconv.Atoi`, modelled on its non-negative fragment (every call
site reached by the claims passes a plain digit string: order numbers
and `Retry-After` header values); a sign or any non-digit character
yields an error (`none`). -/
def goAtoi (s : String) : Option Nat :=
  if s.data = [] then none else goAtoiLoop s.data 0

/-- Whether `l` starts with the sequence `pre`. -/
def listStartsWith : List Char → List Char → Bool
  | _, [] => true
  | [], _ :: _ => false
  | a :: as, b :: bs => a = b && listStartsWith as bs

/-- Whether `sub` occurs contiguously inside `l`. -/
def listContainsSeq : List Char → List Char → Bool
  | [], sub => sub.isEmpty
  | l@(_ :: rest), sub => listStartsWith l sub || listContainsSeq rest sub

/-- `strings.Contains s sub`. -/
def goStringsContains (s sub : String) : Bool :=
  listContainsSeq s.data sub.data

/-- Equality of `Except` values is decidable componentwise. -/
instance {ε α : Type} [DecidableEq ε] [DecidableEq α] : DecidableEq (Except ε α) :=
  fun x y =>
    match x, y with
    | .error a, .error b =>
        if h : a = b then isTrue (by simp [h]) else isFalse (by simp [h])
    | .error _, .ok _ => isFalse (by simp)
    | .ok _, .error _ => isFalse (by simp)
    | .ok a, .ok b =>
        if h : a = b then isTrue (by simp [h]) else isFalse (by simp [h])

/-! ## External accrual authority client (`AccrualRepository`) -/

/-- `repositories.ExternalOrder`, the decoded 200-response body. -/
structure ExternalOrder where
  order : String
  status : String
  accrual : Money
  deriving DecidableEq, Repr

def ExternalOrderStatusRegistered : String := "REGISTERED"

def ExternalOrderStatusProcessing : String := "PROCESSING"

def ExternalOrderStatusProcessed : String := "PROCESSED"

def ExternalOrderStatusInvalid : String := "INVALID"

/-- Errors of the accrual client.  `transport` stands for a transport
error returned by the resty call (`err != nil`), `retryAfterParse` for a
`Retry-After` header value `strconv.Atoi` cannot parse. -/
inductive AccrualError where
  | tooManyRequests
  | orderNotRegistered
  | externalServiceNotAvailable
  | unexpectedBehaviour
  | transport
  | retryAfterParse
  deriving DecidableEq, Repr

/-- Result of running a piece of Go code that may panic. -/
inductive GoResult (α : Type) where
  | ok (val : α)
  | panicked
  deriving DecidableEq, Repr

/-- An HTTP response from the accrual system as the client consumes it:
status code, the `Retry-After` header value slice
(`response.Header()["Retry-After"]`), and the body already decoded into
`ExternalOrder` (what `SetResult` produces on a 200). -/
structure HTTPResponse where
  statusCode : Nat
  retryAfterHeader : List String
  body : ExternalOrder
  deriving DecidableEq, Repr

/-- `repositories.AccrualRepository` state: `retryAfter` is the cooldown
deadline in nanoseconds since the epoch, `0` being Go's zero `time.Time`. -/
structure AccrualRepository where
  retryAfter : Nat
  deriving DecidableEq, Repr

/-- `NewAccrualRepository` returns an `AccrualRepository` VALUE (not a
pointer) with a zero `retryAfter`. -/
def NewAccrualRepository : AccrualRepository := ⟨0⟩

namespace AccrualRepository

/-- `AccrualRepository.CanDoRequest` at instant `now` (nanoseconds):
true when `retryAfter` is the zero time or strictly before `now`. -/
def CanDoRequest (a : AccrualRepository) (now : Nat) : Bool :=
  if a.retryAfter = 0 then true
  else if a.retryAfter < now then true
  else false

/-- `AccrualRepository.GetSleepDuration` at instant `now`:
`time.Duration(time.Until(a.retryAfter).Seconds())`, i.e. the number of
whole SECONDS until the deadline reinterpreted as that many NANOSECONDS
(the float-to-Duration conversion drops the `* time.Second` factor);
truncated at zero for a past deadline. -/
def GetSleepDuration (a : AccrualRepository) (now : Nat) : Nat :=
  if a.retryAfter = 0 then 0 else (a.retryAfter - now) / 1000000000

/-- Outcome of one `GetOrder` body execution: the final value of the
method-local receiver copy, the instant the request reaches the network
(after the optional cooldown sleep), and the returned value — or a
panic. -/
structure GetOrderOutcome where
  copyState : AccrualRepository
  networkTime : Nat
  result : GoResult (Except AccrualError ExternalOrder)
  deriving DecidableEq, Repr

/-- Body of `AccrualRepository.GetOrder`, started at instant `now` with
the network producing `resp` (`none` = transport error).  On a 429 the
code reads `response.Header()["Retry-After"][0]`: with an empty header
slice this index is out of bounds and the goroutine panics.  On a parsed
value `n` it assigns `retryAfter = time.Now().Add(time.Duration(n))` to
the receiver copy — a deadline `n` NANOseconds (not seconds) ahead. -/
def GetOrderBody (a : AccrualRepository) (now : Nat) (resp : Option HTTPResponse) :
    GetOrderOutcome :=
  let t := if CanDoRequest a now then now else now + GetSleepDuration a now
  match resp with
  | none => ⟨a, t, .ok (.error .transport)⟩
  | some response =>
    if response.statusCode = 429 then
      match response.retryAfterHeader with
      | [] => ⟨a, t, .panicked⟩
      | h :: _ =>
        match goAtoi h with
        | none => ⟨a, t, .ok (.error .retryAfterParse)⟩
        | some n => ⟨{ a with retryAfter := t + n }, t, .ok (.error .tooManyRequests)⟩
    else if response.statusCode = 204 then ⟨a, t, .ok (.error .orderNotRegistered)⟩
    else if response.statusCode = 500 then
      ⟨a, t, .ok (.error .externalServiceNotAvailable)⟩
    else if response.statusCode = 200 then ⟨a, t, .ok (.ok response.body)⟩
    else ⟨a, t, .ok (.error .unexpectedBehaviour)⟩

/-- Calling `GetOrder` through the stored repository: `GetOrder` has a
VALUE receiver (`func (a AccrualRepository) GetOrder`) and the repository
is stored by value behind the interface, so the method body runs on a
copy and the caller's stored state is returned unchanged — the
`a.retryAfter = ...` assignment inside the body is lost. -/
def callGetOrder (stored : AccrualRepository) (now : Nat) (resp : Option HTTPResponse) :
    AccrualRepository × GetOrderOutcome :=
  (stored, GetOrderBody stored now resp)

end AccrualRepository

/-! ## Order service — the reconciliation routine -/

namespace OrderService

/-- `OrderService.UpdateOrderStatus` (the reconciliation routine for one
order), parameterized by the accrual client's returned value `res` and by
the failure schedules of the repository calls it can make: `g1` for the
first plain status update, `fp` for `UpdateOrderAndPasteAccrual`, `g2`
for the revert-to-NEW update after a failed primary update.

Branches, in source order: a `GetOrder` error is mapped to
`setStatus(INVALID)` for `ErrOrderNotRegistered` and to `setStatus(NEW)`
for every other error.  On success the external status is switched on:
`REGISTERED` has an EMPTY case body (Go `switch` does not fall through),
so nothing is updated and `nil` is returned; `PROCESSING` maps to
`setStatus(NEW)`; `PROCESSED` to `UpdateOrderAndPasteAccrual`, reverting
to NEW and surfacing the error on failure; `INVALID` to
`setStatus(INVALID)` with the same revert-on-failure; an unknown status
maps to `setStatus(NEW)`. -/
def UpdateOrderStatus (db : DB) (order : OrderRow)
    (res : Except AccrualError ExternalOrder)
    (g1 : SimpleFail) (fp : OrderRepository.TxFailures) (g2 : SimpleFail) :
    DB × Except RepoError Unit :=
  match res with
  | .error e =>
    match e with
    | .orderNotRegistered =>
      let (db1, r) := OrderRepository.UpdateOrderStatus db order.id OrderStatusInvalid g1
      match r with
      | .error innerErr => (db1, .error innerErr)
      | .ok _ => (db1, .ok ())
    | _ =>
      let (db1, r) := OrderRepository.UpdateOrderStatus db order.id OrderStatusNew g1
      match r with
      | .error err => (db1, .error err)
      | .ok _ => (db1, .ok ())
  | .ok orderState =>
    if orderState.status = ExternalOrderStatusRegistered then
      -- empty `case ExternalOrderStatusRegistered:` body: no update, `return nil`
      (db, .ok ())
    else if orderState.status = ExternalOrderStatusProcessing then
      let (db1, r) := OrderRepository.UpdateOrderStatus db order.id OrderStatusNew g1
      match r with
      | .error err => (db1, .error err)
      | .ok _ => (db1, .ok ())
    else if orderState.status = ExternalOrderStatusProcessed then
      let (db1, r) :=
        OrderRepository.UpdateOrderAndPasteAccrual db order OrderStatusProcessed
          orderState.accrual fp
      match r with
      | .ok _ => (db1, .ok ())
      | .error err =>
        let (db2, r2) := OrderRepository.UpdateOrderStatus db1 order.id OrderStatusNew g2
        match r2 with
        | .error innerErr => (db2, .error innerErr)
        | .ok _ => (db2, .error err)
    else if orderState.status = ExternalOrderStatusInvalid then
      let (db1, r) := OrderRepository.UpdateOrderStatus db order.id OrderStatusInvalid g1
      match r with
      | .ok _ => (db1, .ok ())
      | .error err =>
        let (db2, r2) := OrderRepository.UpdateOrderStatus db1 order.id OrderStatusNew g2
        match r2 with
        | .error innerErr => (db2, .error innerErr)
        | .ok _ => (db2, .error err)
    else
      let (db1, r) := OrderRepository.UpdateOrderStatus db order.id OrderStatusNew g1
      match r with
      | .error err => (db1, .error err)
      | .ok _ => (db1, .ok ())

end OrderService

/-! ## Luhn check (`theplant/luhn`), used by the withdrawal handler -/

/-- Checksum loop of `theplant/luhn`: walks the decimal digits of
`number` from the least significant, doubling (and digit-summing) every
digit at an even loop index, and accumulates the running sum.  The
`fuel` argument only bounds the iteration count structurally; the loop
stops at `number = 0` exactly as the Go `for` loop does, and one unit of
fuel per decimal digit suffices. -/
def luhnChecksumGo : Nat → Nat → Nat → Nat
  | 0, _, _ => 0
  | fuel + 1, number, i =>
    if number = 0 then 0
    else
      let cur := number % 10
      let cur2 :=
        if i % 2 = 0 then
          if cur * 2 > 9 then cur * 2 % 10 + cur * 2 / 10 else cur * 2
        else cur
      cur2 + luhnChecksumGo fuel (number / 10) (i + 1)

/-- Checksum loop entered with enough fuel (`number` itself bounds the
number of decimal digits). -/
def luhnChecksumLoop (number : Nat) (i : Nat) : Nat :=
  luhnChecksumGo number number i

/-- `luhn.Valid`: `(number%10 + checksum(number/10)) % 10 == 0`, where
`checksum` returns its running sum modulo 10. -/
def luhnValid (number : Nat) : Bool :=
  (number % 10 + luhnChecksumLoop (number / 10) 0 % 10) % 10 = 0

/-! ## Withdrawal HTTP handler (`CreateWithdrawalHandler.ServeHTTP`) -/

/-- `models.CreateWithdrawalRequest`: the decoded request body. -/
structure CreateWithdrawalRequest where
  order : String
  amount : Money
  deriving DecidableEq, Repr

/-- One observable effect of the handler: an `http.Error` write (which
writes the given status code and an error body), a bare `WriteHeader`,
or the call into the withdrawal service. -/
inductive HandlerEffect where
  | writeError (code : Nat)
  | writeHeader (code : Nat)
  | serviceCreate (number : String) (amount : Money) (userID : Nat)
  deriving DecidableEq, Repr

/-- Whether an effect writes an HTTP status code to the response. -/
def HandlerEffect.writesStatus : HandlerEffect → Bool
  | .writeError _ => true
  | .writeHeader _ => true
  | .serviceCreate _ _ _ => false

namespace CreateWithdrawalHandler

/-- `CreateWithdrawalHandler.ServeHTTP` as the list of effects it
performs, given the request content type, the decoded body (`none` =
JSON decode failure), the authenticated user id, and the result the
withdrawal service returns if called.  Faithful to the source order:
content-type check, decode, `strconv.Atoi` on the order number, Luhn
check, then the zero-amount check — which writes a 422 error but has NO
`return`, so execution falls through to the service call — and finally
the service call with its status-code mapping. -/
def ServeHTTP (contentType : String) (body : Option CreateWithdrawalRequest)
    (userID : Nat) (svc : Except RepoError Nat) : List HandlerEffect :=
  if ¬ goStringsContains contentType "application/json" then [.writeError 400]
  else
    match body with
    | none => [.writeHeader 400]
    | some requestData =>
      match goAtoi requestData.order with
      | none => [.writeHeader 400]
      | some intOrderNumber =>
        if ¬ luhnValid intOrderNumber then [.writeError 422]
        else
          (if requestData.amount = 0 then [.writeError 422] else [])
          ++ [.serviceCreate requestData.order requestData.amount userID]
          ++ match svc with
             | .error e =>
               if e = .withdrawalOrderAlreadyExists then [.writeHeader 400]
               else if e = .notEnoughPoints then [.writeHeader 402]
               else [.writeError 500]
             | .ok _ => [.writeHeader 200]

end CreateWithdrawalHandler

/-! ## Concrete states used to evaluate the code on explicit inputs -/

/-- An order the poller has just marked in-flight (status `PROCESSING`). -/
def demoOrder : OrderRow := ⟨1, 7, "79927398713", OrderStatusProcessing⟩

/-- A one-user database: the demo order in `PROCESSING`, balance 100. -/
def demoDB : DB := ⟨[demoOrder], [], [⟨7, 100, 0⟩], []⟩

/-- Like `demoDB`, with an existing withdrawal for order number `"11"`. -/
def dupDB : DB := ⟨[demoOrder], [], [⟨7, 100, 0⟩], [⟨1, 10, 7, "11"⟩]⟩

/-- Failure schedule of `WithdrawalRepository.Create` where only the
prepare of the `INSERT INTO withdrawal` statement fails. -/
def prepInsertFails : WithdrawalRepository.WFail :=
  ⟨false, false, false, false, false, true, false, false, false⟩

/-- A database whose order 1 is already `PROCESSED` (with its accrual
row) and whose order 2 is `NEW`. -/
def processedDB : DB :=
  ⟨[⟨1, 7, "79927398713", OrderStatusProcessed⟩, ⟨2, 7, "12345678903", OrderStatusNew⟩],
   [⟨500, 7, 1⟩], [⟨7, 500, 0⟩], []⟩

/-- A 429 response from the accrual system carrying `Retry-After: 5`. -/
def resp429 : HTTPResponse := ⟨429, ["5"], ⟨"", "", 0⟩⟩

/-- A 429 response carrying no `Retry-After` header at all. -/
def resp429NoHeader : HTTPResponse := ⟨429, [], ⟨"", "", 0⟩⟩

/-! ## Claim theorems -/

/-- C1 (refuted, code bug): the claim says the reconciliation routine
never returns with the order still in `PROCESSING`.  Evaluating the code
at a concrete failing input: the order is in `PROCESSING`, the authority
call succeeds with external status `REGISTERED`, no store failure is
injected — yet the routine returns without error, the database is
untouched, and the order is still `PROCESSING` (the `REGISTERED` case of
the Go `switch` has an empty body and Go does not fall through, so no
status update runs and only `NEW`-status orders are ever re-dispatched). -/
theorem c1_registered_leaves_processing_eval :
    OrderService.UpdateOrderStatus demoDB demoOrder
        (.ok ⟨"79927398713", ExternalOrderStatusRegistered, 0⟩)
        SimpleFail.noFailures OrderRepository.TxFailures.noFailures
        SimpleFail.noFailures = (demoDB, .ok ()) ∧
    orderStatus demoDB 1 = some OrderStatusProcessing := by
  decide

/-- C2 (refuted, code bug): the claim says that on external status
`REGISTERED` or `PROCESSING` the routine calls `setStatus(NEW)` so the
order ends in `NEW`.  At external status `REGISTERED` the routine
performs no repository call at all — the state is returned unchanged and
the order's status is `PROCESSING`, not `NEW` — while at `PROCESSING`
the promised transition to `NEW` does happen. -/
theorem c2_registered_not_set_to_new_eval :
    OrderService.UpdateOrderStatus demoDB demoOrder
        (.ok ⟨"79927398713", ExternalOrderStatusRegistered, 0⟩)
        SimpleFail.noFailures OrderRepository.TxFailures.noFailures
        SimpleFail.noFailures = (demoDB, .ok ()) ∧
    ¬ orderStatus demoDB 1 = some OrderStatusNew ∧
    orderStatus
      (OrderService.UpdateOrderStatus demoDB demoOrder
        (.ok ⟨"79927398713", ExternalOrderStatusProcessing, 0⟩)
        SimpleFail.noFailures OrderRepository.TxFailures.noFailures
        SimpleFail.noFailures).1 1 = some OrderStatusNew := by
  decide

/-- C3 (refuted, code bug): the claim says a 429 with `Retry-After: 5`
records a process-wide deadline and no subsequent call reaches the
network within 5 seconds.  Evaluating the code: a first call at instant
1000 ns observes the 429 and returns `ErrTooManyRequests`, but the
stored repository is unchanged (`GetOrder` has a value receiver, so the
`a.retryAfter = ...` assignment mutates a discarded copy); a second call
only 1 ns later passes `CanDoRequest` and reaches the network
immediately, well within 5 seconds of the observation.  Even the
discarded copy's deadline was `1000 + 5` — five NANOseconds ahead, since
`time.Duration(5)` is 5 ns, not 5 s. -/
theorem c3_cooldown_never_recorded_eval :
    (AccrualRepository.callGetOrder ⟨0⟩ 1000 (some resp429)).2.result =
      .ok (.error .tooManyRequests) ∧
    (AccrualRepository.callGetOrder ⟨0⟩ 1000 (some resp429)).1 = ⟨0⟩ ∧
    AccrualRepository.CanDoRequest
      (AccrualRepository.callGetOrder ⟨0⟩ 1000 (some resp429)).1 1001 = true ∧
    (AccrualRepository.callGetOrder
      (AccrualRepository.callGetOrder ⟨0⟩ 1000 (some resp429)).1
      1001 (some resp429)).2.networkTime = 1001 ∧
    (AccrualRepository.GetOrderBody ⟨0⟩ 1000 (some resp429)).copyState.retryAfter =
      1005 := by
  decide

/-- C9 (confirmed): `GetOrder` panics exactly on a 429 response whose
`Retry-After` header slice is empty (the unguarded
`response.Header()["Retry-After"][0]` index), and on no other input — so
it is total precisely under the precondition that every 429 carries at
least one `Retry-After` value. -/
theorem c9_get_order_panics_iff (a : AccrualRepository) (now : Nat)
    (resp : Option HTTPResponse) :
    (AccrualRepository.GetOrderBody a now resp).result =
        GoResult.panicked ↔
      ∃ r, resp = some r ∧ r.statusCode = 429 ∧ r.retryAfterHeader = [] := by
  rcases resp with _ | r
  · simp [AccrualRepository.GetOrderBody]
  · simp only [AccrualRepository.GetOrderBody]
    by_cases h429 : r.statusCode = 429
    · rcases hh : r.retryAfterHeader with _ | ⟨v, rest⟩
      · simp [h429, hh]
      · rcases hv : goAtoi v with _ | n <;> simp [h429, hh, hv]
    · split_ifs with h1 h2 h3 <;> simp_all

/-- `find?` commutes with a `map` that preserves the predicate. -/
theorem find?_map_of_pred {α β : Type} (f : α → β) (p : α → Bool) (q : β → Bool)
    (hpq : ∀ a, q (f a) = p a) (l : List α) :
    (l.map f).find? q = (l.find? p).map f := by
  induction l with
  | nil => rfl
  | cons a t ih =>
    simp only [List.map_cons, List.find?]
    rw [hpq a]
    cases p a <;> simp [ih]

/-- The status-update SQL rewrites the status seen for `q` to `st`
exactly when `q` is the targeted id and a row for `q` exists. -/
theorem orderStatus_sqlUpdate (db : DB) (st : String) (oid q : Nat) :
    orderStatus (sqlUpdateOrderStatus db st oid) q =
      (orderStatus db q).map (fun old => if q = oid then st else old) := by
  have hmap := find?_map_of_pred
    (fun r : OrderRow => if r.id = oid then { r with status := st } else r)
    (fun r => r.id = q) (fun r => r.id = q)
    (by intro r; by_cases h : r.id = oid <;> simp [h]) db.orders
  simp only [orderStatus, sqlUpdateOrderStatus]
  rw [hmap]
  cases hfind : db.orders.find? (fun r => r.id = q) with
  | none => simp
  | some r =>
    have hrq : r.id = q := by simpa using List.find?_some hfind
    by_cases hqo : q = oid <;> simp [hrq, hqo]

/-- Dichotomy of `UpdateOrderAndPasteAccrual` at target `PROCESSED`:
either it succeeds and the committed state carries the three writes, or
it errors and the committed state is exactly the input state. -/
theorem paste_accrual_cases (db : DB) (order : OrderRow) (amount : Money)
    (f : OrderRepository.TxFailures) :
    (OrderRepository.UpdateOrderAndPasteAccrual db order OrderStatusProcessed
        amount f).2 = .ok () ∧
      (OrderRepository.UpdateOrderAndPasteAccrual db order OrderStatusProcessed
        amount f).1 =
        sqlAddBalance
          (sqlInsertAccrual (sqlUpdateOrderStatus db OrderStatusProcessed order.id)
            amount order.userId order.id)
          amount order.userId ∨
    ∃ e, (OrderRepository.UpdateOrderAndPasteAccrual db order OrderStatusProcessed
        amount f).2 = .error e ∧
      (OrderRepository.UpdateOrderAndPasteAccrual db order OrderStatusProcessed
        amount f).1 = db := by
  obtain ⟨b1, b2, b3, b4, b5, b6, b7, b8, b9⟩ := f
  cases b1 <;> cases b2 <;> cases b3 <;> cases b4 <;> cases b5 <;> cases b6 <;>
    cases b7 <;> cases b8 <;>
    simp [OrderRepository.UpdateOrderAndPasteAccrual, OrderRepository.rollbackOr]

/-- C4 (confirmed): `UpdateOrderAndPasteAccrual` called for target status
`PROCESSED` is atomic — it either succeeds, in which case the committed
state carries all three effects (order status set to `PROCESSED`,
accrual row recorded for the order, owning user's balance increased by
the amount), or it returns a single error and the committed state is
exactly the input state, for every injected failure schedule. -/
theorem c4_paste_accrual_atomic (db : DB) (order : OrderRow) (amount : Money)
    (f : OrderRepository.TxFailures) :
    (OrderRepository.UpdateOrderAndPasteAccrual db order OrderStatusProcessed
        amount f).2 = .ok () ∧
      (OrderRepository.UpdateOrderAndPasteAccrual db order OrderStatusProcessed
        amount f).1 =
        sqlAddBalance
          (sqlInsertAccrual (sqlUpdateOrderStatus db OrderStatusProcessed order.id)
            amount order.userId order.id)
          amount order.userId ∨
    ∃ e, (OrderRepository.UpdateOrderAndPasteAccrual db order OrderStatusProcessed
        amount f).2 = .error e ∧
      (OrderRepository.UpdateOrderAndPasteAccrual db order OrderStatusProcessed
        amount f).1 = db :=
  paste_accrual_cases db order amount f

/-- C8 (confirmed): `PROCESSED` is unreachable through the plain setter —
`OrderRepository.UpdateOrderStatus` errors with `ErrWrongMethodUsed` when
`PROCESSED` is requested and with `ErrInvalidStatus` on any status
outside the four known ones, while `UpdateOrderAndPasteAccrual` errors
with `ErrWrongMethodUsed` on any target other than `PROCESSED`; moreover
a run of the plain setter never turns a non-`PROCESSED` order into a
`PROCESSED` one, so `PROCESSED` is only reachable inside the combined
atomic credit operation. -/
theorem c8_processed_gated (db : DB) (order : OrderRow) (amount : Money)
    (f : OrderRepository.TxFailures) (g : SimpleFail) (status : String)
    (orderID q : Nat) :
    OrderRepository.UpdateOrderStatus db orderID OrderStatusProcessed g =
      (db, .error .wrongMethodUsed) ∧
    (¬ AllOrderStatuses.contains status →
      OrderRepository.UpdateOrderStatus db orderID status g =
        (db, .error .invalidStatus)) ∧
    (status ≠ OrderStatusProcessed →
      OrderRepository.UpdateOrderAndPasteAccrual db order status amount f =
        (db, .error .wrongMethodUsed)) ∧
    (orderStatus (OrderRepository.UpdateOrderStatus db orderID status g).1 q =
        some OrderStatusProcessed →
      orderStatus db q = some OrderStatusProcessed) := by
  refine ⟨?_, ?_, ?_, ?_⟩
  · rw [OrderRepository.UpdateOrderStatus, if_neg (by decide), if_pos rfl]
  · intro h
    rw [OrderRepository.UpdateOrderStatus, if_pos h]
  · intro h
    rw [OrderRepository.UpdateOrderAndPasteAccrual, if_pos h]
  · intro h
    by_cases hc : ¬ AllOrderStatuses.contains status
    · rw [OrderRepository.UpdateOrderStatus, if_pos hc] at h
      exact h
    · by_cases hp : status = OrderStatusProcessed
      · rw [OrderRepository.UpdateOrderStatus, if_neg hc, if_pos hp] at h
        exact h
      · by_cases hprep : g.prep = true
        · rw [OrderRepository.UpdateOrderStatus, if_neg hc, if_neg hp,
            if_pos hprep] at h
          exact h
        · by_cases hexec : g.exec = true
          · rw [OrderRepository.UpdateOrderStatus, if_neg hc, if_neg hp,
              if_neg hprep, if_pos hexec] at h
            exact h
          · rw [OrderRepository.UpdateOrderStatus, if_neg hc, if_neg hp,
              if_neg hprep, if_neg hexec] at h
            replace h : orderStatus (sqlUpdateOrderStatus db status orderID) q =
                some OrderStatusProcessed := h
            rw [orderStatus_sqlUpdate] at h
            rcases hq : orderStatus db q with _ | old
            · rw [hq] at h
              simp at h
            · rw [hq] at h
              rw [Option.map_some'] at h
              injection h with h
              by_cases hqo : q = orderID
              · rw [if_pos hqo] at h
                exact absurd h hp
              · rw [if_neg hqo] at h
                simp [hq, h]

/-- Witness for `c8_processed_gated`: evaluated once at the unknown
status `"FOO"` (discharging the invalid-status and wrong-target
hypotheses) and once at a database whose order 1 is already `PROCESSED`
while order 2 is set to `NEW` (discharging the hypothesis of the
no-new-`PROCESSED` conjunct). -/
theorem c8_processed_gated_witness :
    (¬ AllOrderStatuses.contains "FOO" ∧
     OrderRepository.UpdateOrderStatus demoDB 1 "FOO" SimpleFail.noFailures =
       (demoDB, .error .invalidStatus) ∧
     OrderRepository.UpdateOrderAndPasteAccrual demoDB demoOrder "FOO" 5
       OrderRepository.TxFailures.noFailures = (demoDB, .error .wrongMethodUsed)) ∧
    (OrderRepository.UpdateOrderStatus demoDB 1 OrderStatusProcessed
       SimpleFail.noFailures = (demoDB, .error .wrongMethodUsed)) ∧
    orderStatus processedDB 1 = some OrderStatusProcessed :=
  ⟨⟨by decide,
    (c8_processed_gated demoDB demoOrder 5 OrderRepository.TxFailures.noFailures
      SimpleFail.noFailures "FOO" 1 1).2.1 (by decide),
    (c8_processed_gated demoDB demoOrder 5 OrderRepository.TxFailures.noFailures
      SimpleFail.noFailures "FOO" 1 1).2.2.1 (by decide)⟩,
   (c8_processed_gated demoDB demoOrder 5 OrderRepository.TxFailures.noFailures
      SimpleFail.noFailures "FOO" 1 1).1,
   (c8_processed_gated processedDB demoOrder 5 OrderRepository.TxFailures.noFailures
      SimpleFail.noFailures OrderStatusNew 2 1).2.2.2 (by decide)⟩

/-- C6 (confirmed): with no injected driver failure and an existing
balance row, `WithdrawalRepository.Create` fails with
`ErrNotEnoughPoints` exactly when the requested amount exceeds the
current balance, and on that failure the committed state is completely
unchanged (balance and cumulative withdrawn sum keep their values, no
withdrawal row is created) and the transaction was rolled back. -/
theorem c6_insufficient_balance (db : DB) (number : String) (amount bal : Money)
    (u : Nat) (hbal : sqlSelectBalance db u = some bal) :
    ((WithdrawalRepository.Create db number amount u
        WithdrawalRepository.WFail.noFailures).2.2 = .error .notEnoughPoints ↔
      amount > bal) ∧
    (amount > bal →
      WithdrawalRepository.Create db number amount u
        WithdrawalRepository.WFail.noFailures =
        (db, .rolledBack, .error .notEnoughPoints)) := by
  unfold WithdrawalRepository.Create
  rw [hbal]
  constructor
  · constructor
    · intro h
      by_cases hgt : amount > bal
      · exact hgt
      · exfalso
        rcases hdup : withdrawalNumberExists db number <;>
          simp [WithdrawalRepository.WFail.noFailures, WithdrawalRepository.rbFatal,
            hgt, hdup] at h
    · intro hgt
      simp [WithdrawalRepository.WFail.noFailures, WithdrawalRepository.rbFatal, hgt]
  · intro hgt
    simp [WithdrawalRepository.WFail.noFailures, WithdrawalRepository.rbFatal, hgt]

/-- Witness for `c6_insufficient_balance`, at the spec's own scenario:
balance 100, requested withdrawal 150 — rejected with the balance row,
the withdrawn sum and the withdrawal table untouched. -/
theorem c6_insufficient_balance_witness :
    sqlSelectBalance demoDB 7 = some 100 ∧ (150 : Money) > 100 ∧
    WithdrawalRepository.Create demoDB "79927398713" 150 7
      WithdrawalRepository.WFail.noFailures =
      (demoDB, .rolledBack, .error .notEnoughPoints) :=
  ⟨by decide, by decide,
   (c6_insufficient_balance demoDB "79927398713" 150 100 7 (by decide)).2 (by decide)⟩

/-- C7 counterexample: the claim says every failing step of
`WithdrawalRepository.Create` rolls the transaction back.  Concretely:
balance 100, a fresh order number, amount 50, and a driver failure of
the `INSERT INTO withdrawal` statement prepare — the call fails, but the
code returns from that branch without any `Rollback` call, so the
transaction (holding the `FOR UPDATE` row lock after the in-transaction
debit) is left open, not rolled back. -/
theorem c7_prepare_insert_no_rollback_counterexample :
    (WithdrawalRepository.Create demoDB "79927398713" 50 7 prepInsertFails).2.2 =
      .error .storeFailure ∧
    (WithdrawalRepository.Create demoDB "79927398713" 50 7 prepInsertFails).2.1 =
      TxState.leftOpen ∧
    ¬ (WithdrawalRepository.Create demoDB "79927398713" 50 7 prepInsertFails).2.1 =
      TxState.rolledBack := by
  decide

/-- Committed state after a successful withdrawal: the balance row is
debited (and its cumulative withdrawn sum incremented) and the
withdrawal row is inserted. -/
def dbWithdrawSuccess (db : DB) (amount : Money) (u : Nat) (number : String) : DB :=
  (sqlInsertWithdrawal (sqlWithdrawBalance db amount u) amount u number).1

/-- Case analysis of `WithdrawalRepository.Create`, stated against an
arbitrary result triple: the duplicate-number error only arises when the
number is taken and is rolled back with the state unchanged; every error
leaves the committed state unchanged; the transaction is left open
only on a failing prepare of the withdrawal insert; and a success
requires a sufficient balance and a fresh number and commits exactly the
debit-plus-insert effect. -/
theorem create_case_analysis (db : DB) (number : String) (amount : Money) (u : Nat)
    (f : WithdrawalRepository.WFail) (db' : DB) (ts : TxState)
    (res : Except RepoError Nat)
    (hC : WithdrawalRepository.Create db number amount u f = (db', ts, res)) :
    (res = .error .withdrawalOrderAlreadyExists →
      db' = db ∧ ts = TxState.rolledBack ∧ withdrawalNumberExists db number = true) ∧
    (∀ e, res = .error e → db' = db) ∧
    (ts = TxState.leftOpen → f.prepInsertWithdrawal = true ∧ db' = db) ∧
    (∀ id, res = .ok id →
      ∃ bal, sqlSelectBalance db u = some bal ∧ ¬ amount > bal ∧
        withdrawalNumberExists db number = false ∧
        db' = dbWithdrawSuccess db amount u number) := by
  by_cases h1 : f.beginTx = true
  · simp [WithdrawalRepository.Create, h1] at hC
    obtain ⟨rfl, rfl, rfl⟩ := hC
    simp_all
  · by_cases h2 : f.prepSelect = true
    · by_cases hr : f.rollback = true <;>
      · simp [WithdrawalRepository.Create, h1, h2, hr] at hC
        obtain ⟨rfl, rfl, rfl⟩ := hC
        simp_all
    · by_cases h3 : f.querySelect = true
      · by_cases hr : f.rollback = true <;>
        · simp [WithdrawalRepository.Create, WithdrawalRepository.rbFatal,
            h1, h2, h3, hr] at hC
          obtain ⟨rfl, rfl, rfl⟩ := hC
          simp_all
      · rcases hsel : sqlSelectBalance db u with _ | bal
        · by_cases hr : f.rollback = true <;>
          · simp [WithdrawalRepository.Create, WithdrawalRepository.rbFatal,
              h1, h2, h3, hr, hsel] at hC
            obtain ⟨rfl, rfl, rfl⟩ := hC
            simp_all
        · by_cases hgt : amount > bal
          · by_cases hr : f.rollback = true <;>
            · simp [WithdrawalRepository.Create, WithdrawalRepository.rbFatal,
                h1, h2, h3, hr, hsel, hgt] at hC
              obtain ⟨rfl, rfl, rfl⟩ := hC
              simp_all
          · by_cases h4 : f.prepUpdateBalance = true
            · by_cases hr : f.rollback = true <;>
              · simp [WithdrawalRepository.Create, WithdrawalRepository.rbFatal,
                  h1, h2, h3, h4, hr, hsel, hgt] at hC
                obtain ⟨rfl, rfl, rfl⟩ := hC
                simp_all
            · by_cases h5 : f.execUpdateBalance = true
              · by_cases hr : f.rollback = true <;>
                · simp [WithdrawalRepository.Create, WithdrawalRepository.rbFatal,
                    h1, h2, h3, h4, h5, hr, hsel, hgt] at hC
                  obtain ⟨rfl, rfl, rfl⟩ := hC
                  simp_all
              · by_cases h6 : f.prepInsertWithdrawal = true
                · simp [WithdrawalRepository.Create, WithdrawalRepository.rbFatal,
                    h1, h2, h3, h4, h5, h6, hsel, hgt] at hC
                  obtain ⟨rfl, rfl, rfl⟩ := hC
                  simp_all
                · by_cases h7 : f.queryInsert = true
                  · by_cases hr : f.rollback = true <;>
                    · simp [WithdrawalRepository.Create, WithdrawalRepository.rbFatal,
                        h1, h2, h3, h4, h5, h6, h7, hr, hsel, hgt] at hC
                      obtain ⟨rfl, rfl, rfl⟩ := hC
                      simp_all
                  · rcases hdup : withdrawalNumberExists db number
                    · by_cases h8 : f.commit = true
                      · simp [WithdrawalRepository.Create, WithdrawalRepository.rbFatal,
                          h1, h2, h3, h4, h5, h6, h7, h8, hsel, hgt, hdup,
                          sqlInsertWithdrawal] at hC
                        obtain ⟨rfl, rfl, rfl⟩ := hC
                        simp_all
                      · simp [WithdrawalRepository.Create, WithdrawalRepository.rbFatal,
                          h1, h2, h3, h4, h5, h6, h7, h8, hsel, hgt, hdup,
                          sqlInsertWithdrawal] at hC
                        obtain ⟨rfl, rfl, rfl⟩ := hC
                        refine ⟨by simp, fun e he => by simp at he, by simp, ?_⟩
                        intro id _
                        exact ⟨bal, rfl, hgt, rfl,
                          by simp [dbWithdrawSuccess, sqlInsertWithdrawal]⟩
                    · by_cases hr : f.rollback = true <;>
                      · simp [WithdrawalRepository.Create, WithdrawalRepository.rbFatal,
                          h1, h2, h3, h4, h5, h6, h7, hr, hsel, hgt, hdup] at hC
                        obtain ⟨rfl, rfl, rfl⟩ := hC
                        simp_all

/-- C7 as amended: `Create` fails with `ErrWithdrawalOrderAlreadyExists`
only when the order number is already used by a withdrawal, and on that
path the transaction is rolled back with the committed state unchanged;
EVERY error path leaves the committed state unchanged, so no partial
debit is ever visible; but the transaction is left open (instead of
being rolled back) on exactly one failing step — the failure to prepare
the withdrawal-insert statement. -/
theorem c7_rollback_amended (db : DB) (number : String) (amount : Money) (u : Nat)
    (f : WithdrawalRepository.WFail) :
    ((WithdrawalRepository.Create db number amount u f).2.2 =
        .error .withdrawalOrderAlreadyExists →
      (WithdrawalRepository.Create db number amount u f).1 = db ∧
      (WithdrawalRepository.Create db number amount u f).2.1 = TxState.rolledBack ∧
      withdrawalNumberExists db number = true) ∧
    (∀ e, (WithdrawalRepository.Create db number amount u f).2.2 = .error e →
      (WithdrawalRepository.Create db number amount u f).1 = db) ∧
    ((WithdrawalRepository.Create db number amount u f).2.1 = TxState.leftOpen →
      f.prepInsertWithdrawal = true ∧
      (WithdrawalRepository.Create db number amount u f).1 = db) :=
  have h := create_case_analysis db number amount u f
    (WithdrawalRepository.Create db number amount u f).1
    (WithdrawalRepository.Create db number amount u f).2.1
    (WithdrawalRepository.Create db number amount u f).2.2 rfl
  ⟨h.1, h.2.1, h.2.2.1⟩

/-- Witness for `c7_rollback_amended`: evaluated at a database already
holding a withdrawal for order number `"11"` — the duplicate is
rejected, rolled back and the state is unchanged — and on the
no-failure, fresh-number run, whose error hypotheses are vacuous. -/
theorem c7_rollback_amended_witness :
    (WithdrawalRepository.Create dupDB "11" 10 7
        WithdrawalRepository.WFail.noFailures).2.2 =
      .error .withdrawalOrderAlreadyExists ∧
    ((WithdrawalRepository.Create dupDB "11" 10 7
        WithdrawalRepository.WFail.noFailures).1 = dupDB ∧
     (WithdrawalRepository.Create dupDB "11" 10 7
        WithdrawalRepository.WFail.noFailures).2.1 = TxState.rolledBack ∧
     withdrawalNumberExists dupDB "11" = true) ∧
    (WithdrawalRepository.Create demoDB "79927398713" 50 7 prepInsertFails).2.1 =
      TxState.leftOpen ∧
    (prepInsertFails.prepInsertWithdrawal = true ∧
     (WithdrawalRepository.Create demoDB "79927398713" 50 7 prepInsertFails).1 =
       demoDB) :=
  ⟨by decide,
   (c7_rollback_amended dupDB "11" 10 7 WithdrawalRepository.WFail.noFailures).1
     (by decide),
   by decide,
   (c7_rollback_amended demoDB "79927398713" 50 7 prepInsertFails).2.2 (by decide)⟩

/-- C10 (confirmed): on a JSON request whose order number parses and
passes the Luhn check but whose amount is 0, the handler first writes a
422 error response, then — because the zero-amount branch has no
`return` — still calls the withdrawal service with amount 0, and then
writes a second status code for the same request (two status-writing
effects in total). -/
theorem c10_zero_amount_falls_through (contentType : String)
    (requestData : CreateWithdrawalRequest) (userID : Nat)
    (svc : Except RepoError Nat) (n : Nat)
    (hct : goStringsContains contentType "application/json" = true)
    (hparse : goAtoi requestData.order = some n)
    (hluhn : luhnValid n = true)
    (hamount : requestData.amount = 0) :
    (CreateWithdrawalHandler.ServeHTTP contentType (some requestData) userID
        svc).take 2 =
      [.writeError 422, .serviceCreate requestData.order 0 userID] ∧
    ((CreateWithdrawalHandler.ServeHTTP contentType (some requestData) userID
        svc).filter (fun ef => ef.writesStatus)).length = 2 := by
  unfold CreateWithdrawalHandler.ServeHTTP
  rcases svc with e | id
  · by_cases hdup : e = RepoError.withdrawalOrderAlreadyExists
    · simp [hct, hparse, hluhn, hamount, hdup, HandlerEffect.writesStatus]
    · by_cases hnep : e = RepoError.notEnoughPoints <;>
        simp [hct, hparse, hluhn, hamount, hdup, hnep, HandlerEffect.writesStatus]
  · simp [hct, hparse, hluhn, hamount, HandlerEffect.writesStatus]

/-- Witness for `c10_zero_amount_falls_through`: the spec's valid-Luhn
order number `79927398713`, amount 0, a succeeding service call. -/
theorem c10_zero_amount_falls_through_witness :
    (goStringsContains "application/json" "application/json" = true ∧
     goAtoi "79927398713" = some 79927398713 ∧
     luhnValid 79927398713 = true) ∧
    (CreateWithdrawalHandler.ServeHTTP "application/json"
        (some ⟨"79927398713", 0⟩) 7 (.ok 1)).take 2 =
      [.writeError 422, .serviceCreate "79927398713" 0 7] ∧
    ((CreateWithdrawalHandler.ServeHTTP "application/json"
        (some ⟨"79927398713", 0⟩) 7 (.ok 1)).filter
      (fun ef => ef.writesStatus)).length = 2 :=
  ⟨⟨by decide, by decide, by decide⟩,
   (c10_zero_amount_falls_through "application/json" ⟨"79927398713", 0⟩ 7 (.ok 1)
      79927398713 (by decide) (by decide) (by decide) rfl).1,
   (c10_zero_amount_falls_through "application/json" ⟨"79927398713", 0⟩ 7 (.ok 1)
      79927398713 (by decide) (by decide) (by decide) rfl).2⟩

/-! ## The balance ledger invariant (C5) -/

/-- The balance rows of one user. -/
def balanceRowsOf (db : DB) (u : Nat) : List BalanceRow :=
  db.balances.filter (fun r => r.userId = u)

/-- `Balance.current` of a user (sum of the balance column over the
user's rows; with the one-row-per-user shape this is that row's value). -/
def currentBalance (db : DB) (u : Nat) : Money :=
  ((balanceRowsOf db u).map (fun r => r.balance)).sum

/-- Sum of all credits (accrual rows) applied to a user. -/
def creditsSum (db : DB) (u : Nat) : Money :=
  ((db.accruals.filter (fun r => r.userId = u)).map (fun r => r.amount)).sum

/-- Sum of all withdrawals applied to a user. -/
def withdrawnSum (db : DB) (u : Nat) : Money :=
  ((db.withdrawals.filter (fun w => w.userId = u)).map (fun w => w.amount)).sum

/-- The ledger invariant of the spec for one user: a single balance row,
`current = Σ credits − Σ withdrawals`, and `current ≥ 0`. -/
def BalanceInv (db : DB) (u : Nat) : Prop :=
  (balanceRowsOf db u).length = 1 ∧
  currentBalance db u = creditsSum db u - withdrawnSum db u ∧
  0 ≤ currentBalance db u

/-- One ledger operation: a credit applied through
`OrderRepository.UpdateOrderAndPasteAccrual` or a withdrawal applied
through `WithdrawalRepository.Create`, each with an arbitrary injected
failure schedule. -/
inductive LedgerOp where
  | credit (order : OrderRow) (amount : Money) (f : OrderRepository.TxFailures)
  | withdraw (number : String) (amount : Money) (userID : Nat)
      (f : WithdrawalRepository.WFail)
  deriving DecidableEq, Repr

/-- The committed state after one ledger operation. -/
def applyLedgerOp (db : DB) : LedgerOp → DB
  | .credit order amount f =>
      (OrderRepository.UpdateOrderAndPasteAccrual db order OrderStatusProcessed
        amount f).1
  | .withdraw number amount userID f =>
      (WithdrawalRepository.Create db number amount userID f).1

/-- Whether a credit operation carries a non-negative amount (the claim
restricts credits to non-negative amounts; withdrawals are
unconstrained). -/
def creditNonneg : LedgerOp → Bool
  | .credit _ amount _ => decide (0 ≤ amount)
  | .withdraw _ _ _ _ => true

/-- Filtering commutes with a map that preserves the user id. -/
theorem filter_map_userId {g : BalanceRow → BalanceRow}
    (hg : ∀ r, (g r).userId = r.userId) (l : List BalanceRow) (u : Nat) :
    (l.map g).filter (fun r => r.userId = u) =
      (l.filter (fun r => r.userId = u)).map g := by
  induction l with
  | nil => rfl
  | cons a t ih =>
    by_cases ha : a.userId = u <;> simp [List.filter_cons, hg, ha, ih]

/-- `sqlAddBalance` acts on a user's rows as a row-wise map. -/
theorem balanceRowsOf_addBalance (db : DB) (a : Money) (v u : Nat) :
    balanceRowsOf (sqlAddBalance db a v) u =
      (balanceRowsOf db u).map
        (fun r => if r.userId = v then { r with balance := r.balance + a } else r) := by
  unfold balanceRowsOf sqlAddBalance
  exact filter_map_userId
    (fun r => by by_cases h : r.userId = v <;> simp [h]) db.balances u

/-- `sqlWithdrawBalance` acts on a user's rows as a row-wise map. -/
theorem balanceRowsOf_withdrawBalance (db : DB) (a : Money) (v u : Nat) :
    balanceRowsOf (sqlWithdrawBalance db a v) u =
      (balanceRowsOf db u).map
        (fun r => if r.userId = v then
          { r with balance := r.balance - a,
                   withdrawalsSum := r.withdrawalsSum + a } else r) := by
  unfold balanceRowsOf sqlWithdrawBalance
  exact filter_map_userId
    (fun r => by by_cases h : r.userId = v <;> simp [h]) db.balances u

/-- A member of a user's balance rows carries that user's id. -/
theorem userId_of_mem_balanceRowsOf {db : DB} {u : Nat} {b : BalanceRow}
    (hmem : b ∈ balanceRowsOf db u) : b.userId = u := by
  unfold balanceRowsOf at hmem
  have h2 := (List.mem_filter.mp hmem).2
  simpa using h2

/-- Effect of the credit SQL on the current balance, at the one-row
shape. -/
theorem currentBalance_addBalance (db : DB) (a : Money) (v u : Nat)
    (b : BalanceRow) (hone : balanceRowsOf db u = [b]) :
    currentBalance (sqlAddBalance db a v) u =
      currentBalance db u + (if u = v then a else 0) := by
  have hb : b.userId = u :=
    userId_of_mem_balanceRowsOf (by rw [hone]; exact List.mem_singleton.mpr rfl)
  unfold currentBalance
  rw [balanceRowsOf_addBalance, hone]
  by_cases h : u = v <;> simp [hb, h]

/-- Effect of the debit SQL on the current balance, at the one-row
shape. -/
theorem currentBalance_withdrawBalance (db : DB) (a : Money) (v u : Nat)
    (b : BalanceRow) (hone : balanceRowsOf db u = [b]) :
    currentBalance (sqlWithdrawBalance db a v) u =
      currentBalance db u - (if u = v then a else 0) := by
  have hb : b.userId = u :=
    userId_of_mem_balanceRowsOf (by rw [hone]; exact List.mem_singleton.mpr rfl)
  unfold currentBalance
  rw [balanceRowsOf_withdrawBalance, hone]
  by_cases h : u = v <;> simp [hb, h]

/-- Effect of the accrual insert on a user's credit sum. -/
theorem creditsSum_insertAccrual (db : DB) (a : Money) (v oid u : Nat) :
    creditsSum (sqlInsertAccrual db a v oid) u =
      creditsSum db u + (if v = u then a else 0) := by
  unfold creditsSum sqlInsertAccrual
  rw [List.filter_append]
  by_cases h : v = u <;> simp [h]

/-- Effect of the withdrawal insert on a user's withdrawal sum. -/
theorem withdrawnSum_insertWithdrawal (db : DB) (a : Money) (v : Nat)
    (number : String) (u : Nat) :
    withdrawnSum (sqlInsertWithdrawal db a v number).1 u =
      withdrawnSum db u + (if v = u then a else 0) := by
  unfold withdrawnSum sqlInsertWithdrawal
  rw [List.filter_append]
  by_cases h : v = u <;> simp [h]

/-- The first row a `find?` sees is the head of the filtered list. -/
theorem find?_of_filter_single (l : List BalanceRow) (u : Nat) (b : BalanceRow)
    (hone : l.filter (fun r => r.userId = u) = [b]) :
    l.find? (fun r => r.userId = u) = some b := by
  induction l with
  | nil => simp at hone
  | cons a t ih =>
    by_cases ha : a.userId = u
    · simp [List.filter_cons, ha] at hone
      obtain ⟨rfl, -⟩ := hone
      simp [List.find?_cons, ha]
    · simp [List.filter_cons, ha] at hone
      simp [List.find?_cons, ha]
      exact ih hone

/-- With a single balance row, the `FOR UPDATE` select reads exactly the
current balance. -/
theorem sqlSelectBalance_of_single (db : DB) (u : Nat) (b : BalanceRow)
    (hone : balanceRowsOf db u = [b]) :
    sqlSelectBalance db u = some b.balance := by
  unfold sqlSelectBalance
  unfold balanceRowsOf at hone
  rw [find?_of_filter_single db.balances u b hone]
  rfl

/-- A credit through the atomic paste-accrual operation preserves the
ledger invariant of every user, for any failure schedule, as long as the
credited amount is non-negative. -/
theorem credit_preserves_inv (db : DB) (u : Nat) (order : OrderRow)
    (amount : Money) (f : OrderRepository.TxFailures)
    (h : BalanceInv db u) (ha : 0 ≤ amount) :
    BalanceInv
      (OrderRepository.UpdateOrderAndPasteAccrual db order OrderStatusProcessed
        amount f).1 u := by
  rcases paste_accrual_cases db order amount f with ⟨_, hdb⟩ | ⟨e, _, hdb⟩
  · rw [hdb]
    obtain ⟨hlen, heq, hpos⟩ := h
    obtain ⟨b, hone⟩ := List.length_eq_one.mp hlen
    have hrows0 : balanceRowsOf
        (sqlInsertAccrual (sqlUpdateOrderStatus db OrderStatusProcessed order.id)
          amount order.userId order.id) u = balanceRowsOf db u := rfl
    have hcur0 : currentBalance
        (sqlInsertAccrual (sqlUpdateOrderStatus db OrderStatusProcessed order.id)
          amount order.userId order.id) u = currentBalance db u := rfl
    refine ⟨?_, ?_, ?_⟩
    · rw [show balanceRowsOf
          (sqlAddBalance
            (sqlInsertAccrual (sqlUpdateOrderStatus db OrderStatusProcessed order.id)
              amount order.userId order.id) amount order.userId) u =
          (balanceRowsOf db u).map _ from balanceRowsOf_addBalance _ _ _ _]
      simp [hlen]
    · rw [show currentBalance
          (sqlAddBalance
            (sqlInsertAccrual (sqlUpdateOrderStatus db OrderStatusProcessed order.id)
              amount order.userId order.id) amount order.userId) u =
          currentBalance db u + (if u = order.userId then amount else 0) from
          currentBalance_addBalance _ _ _ _ b hone]
      rw [show creditsSum
          (sqlAddBalance
            (sqlInsertAccrual (sqlUpdateOrderStatus db OrderStatusProcessed order.id)
              amount order.userId order.id) amount order.userId) u =
          creditsSum db u + (if order.userId = u then amount else 0) from
          creditsSum_insertAccrual _ _ _ _ _]
      rw [show withdrawnSum
          (sqlAddBalance
            (sqlInsertAccrual (sqlUpdateOrderStatus db OrderStatusProcessed order.id)
              amount order.userId order.id) amount order.userId) u =
          withdrawnSum db u from rfl]
      by_cases hv : u = order.userId
      · rw [if_pos hv, if_pos hv.symm, heq]
        ring
      · rw [if_neg hv, if_neg (fun hh => hv hh.symm), heq]
        ring
    · rw [show currentBalance
          (sqlAddBalance
            (sqlInsertAccrual (sqlUpdateOrderStatus db OrderStatusProcessed order.id)
              amount order.userId order.id) amount order.userId) u =
          currentBalance db u + (if u = order.userId then amount else 0) from
          currentBalance_addBalance _ _ _ _ b hone]
      by_cases hv : u = order.userId
      · rw [if_pos hv]
        linarith
      · rw [if_neg hv]
        linarith
  · rw [hdb]
    exact h

/-- A withdrawal through `WithdrawalRepository.Create` preserves the
ledger invariant of every user, for any amount and failure schedule (the
insufficient-balance guard protects non-negativity). -/
theorem withdraw_preserves_inv (db : DB) (u : Nat) (number : String)
    (amount : Money) (v : Nat) (f : WithdrawalRepository.WFail)
    (h : BalanceInv db u) :
    BalanceInv (WithdrawalRepository.Create db number amount v f).1 u := by
  have hcase := create_case_analysis db number amount v f
    (WithdrawalRepository.Create db number amount v f).1
    (WithdrawalRepository.Create db number amount v f).2.1
    (WithdrawalRepository.Create db number amount v f).2.2 rfl
  rcases hres : (WithdrawalRepository.Create db number amount v f).2.2 with e | id
  · rw [hcase.2.1 e hres]
    exact h
  · obtain ⟨bal, hsel, hle, _, hdb⟩ := hcase.2.2.2 id hres
    rw [hdb]
    obtain ⟨hlen, heq, hpos⟩ := h
    obtain ⟨b, hone⟩ := List.length_eq_one.mp hlen
    have hrows1 : balanceRowsOf (dbWithdrawSuccess db amount v number) u =
        (balanceRowsOf db u).map
          (fun r => if r.userId = v then
            { r with balance := r.balance - amount,
                     withdrawalsSum := r.withdrawalsSum + amount } else r) :=
      balanceRowsOf_withdrawBalance db amount v u
    have hcur1 : currentBalance (dbWithdrawSuccess db amount v number) u =
        currentBalance db u - (if u = v then amount else 0) :=
      currentBalance_withdrawBalance db amount v u b hone
    have hcred1 : creditsSum (dbWithdrawSuccess db amount v number) u =
        creditsSum db u := rfl
    have hwd1 : withdrawnSum (dbWithdrawSuccess db amount v number) u =
        withdrawnSum db u + (if v = u then amount else 0) :=
      withdrawnSum_insertWithdrawal (sqlWithdrawBalance db amount v) amount v number u
    refine ⟨?_, ?_, ?_⟩
    · rw [hrows1, hone]
      simp
    · rw [hcur1, hcred1, hwd1]
      by_cases hv : u = v
      · rw [if_pos hv, if_pos hv.symm, heq]
        ring
      · rw [if_neg hv, if_neg (fun hh => hv hh.symm), heq]
        ring
    · rw [hcur1]
      by_cases hv : u = v
      · have hthis := sqlSelectBalance_of_single db u b hone
        rw [hv, hsel] at hthis
        have hh : bal = b.balance := by injection hthis
        have hb2 : currentBalance db u = b.balance := by
          unfold currentBalance
          rw [hone]
          simp
        rw [if_pos hv]
        have hamount : amount ≤ bal := not_lt.mp hle
        linarith
      · rw [if_neg hv]
        linarith

/-- Folding any list of non-negative-credit ledger operations preserves
the invariant. -/
theorem inv_foldl (ops : List LedgerOp) (db : DB) (u : Nat)
    (h : BalanceInv db u) (hops : ∀ op ∈ ops, creditNonneg op = true) :
    BalanceInv (ops.foldl applyLedgerOp db) u := by
  induction ops generalizing db with
  | nil => exact h
  | cons op rest ih =>
    rw [List.foldl_cons]
    refine ih (applyLedgerOp db op) ?_ (fun o ho => hops o (List.mem_cons_of_mem _ ho))
    cases op with
    | credit order amount f =>
      have ha : (0 : Money) ≤ amount := by
        have := hops _ (List.mem_cons_self _ _)
        simpa [creditNonneg] using this
      exact credit_preserves_inv db u order amount f h ha
    | withdraw number amount userID f =>
      exact withdraw_preserves_inv db u number amount userID f h

/-- C5 (confirmed): starting from a zero balance (one balance row at 0,
no accrual and no withdrawal rows for the user), after every prefix of
any sequence of credit operations with non-negative amounts and
withdrawal operations — by any users, under any injected failure
schedules — the user's balance equals the sum of applied credits minus
the sum of applied withdrawals and is non-negative. -/
theorem c5_ledger_invariant (u : Nat) (db0 : DB) (ops : List LedgerOp)
    (hrow : balanceRowsOf db0 u = [⟨u, 0, 0⟩])
    (hA : creditsSum db0 u = 0) (hW : withdrawnSum db0 u = 0)
    (hops : ∀ op ∈ ops, creditNonneg op = true) :
    ∀ p t, p ++ t = ops → BalanceInv (p.foldl applyLedgerOp db0) u := by
  intro p t hpt
  have h0 : BalanceInv db0 u := by
    refine ⟨by rw [hrow]; rfl, ?_, ?_⟩ <;>
      simp [currentBalance, hrow, hA, hW]
  exact inv_foldl p db0 u h0
    (fun op hop => hops op (hpt ▸ List.mem_append_left t hop))

/-- Witness for `c5_ledger_invariant`: user 7 starts at balance 0, is
credited 500 (order `79927398713` processed) and withdraws 200; the
invariant holds after the full sequence. -/
theorem c5_ledger_invariant_witness :
    (balanceRowsOf ⟨[demoOrder], [], [⟨7, 0, 0⟩], []⟩ 7 = [⟨7, 0, 0⟩] ∧
     creditsSum ⟨[demoOrder], [], [⟨7, 0, 0⟩], []⟩ 7 = 0 ∧
     withdrawnSum ⟨[demoOrder], [], [⟨7, 0, 0⟩], []⟩ 7 = 0 ∧
     (∀ op ∈ [LedgerOp.credit demoOrder 500 OrderRepository.TxFailures.noFailures,
              LedgerOp.withdraw "12345678903" 200 7
                WithdrawalRepository.WFail.noFailures],
       creditNonneg op = true)) ∧
    BalanceInv
      (([LedgerOp.credit demoOrder 500 OrderRepository.TxFailures.noFailures,
         LedgerOp.withdraw "12345678903" 200 7
           WithdrawalRepository.WFail.noFailures].foldl applyLedgerOp
        ⟨[demoOrder], [], [⟨7, 0, 0⟩], []⟩)) 7 :=
  ⟨⟨by decide, by decide, by decide, by decide⟩,
   c5_ledger_invariant 7 ⟨[demoOrder], [], [⟨7, 0, 0⟩], []⟩
     [LedgerOp.credit demoOrder 500 OrderRepository.TxFailures.noFailures,
      LedgerOp.withdraw "12345678903" 200 7 WithdrawalRepository.WFail.noFailures]
     (by decide) (by decide) (by decide) (by decide)
     [LedgerOp.credit demoOrder 500 OrderRepository.TxFailures.noFailures,
      LedgerOp.withdraw "12345678903" 200 7 WithdrawalRepository.WFail.noFailures]
     [] rfl⟩

end Gophermart
